import Mathlib

/-!
# Verification of the LiteShare rate-limiting core (`src/lib/rate-limit.ts`)

A shallow embedding of the quota/rate-limiting engine.  JavaScript numbers
holding counts, byte totals and millisecond timestamps are modelled as `Int`
(all arithmetic in the source stays far below 2^53, where JS number
arithmetic is exact integer arithmetic); the in-memory `Map` store is
modelled as an association list with JS `Map` get/set/delete semantics;
`Date.now()` is passed in explicitly as a `now : Int` parameter.  The one
floating-point quantity, `percentageUsed`, is modelled over `Rat`.
-/

namespace LiteShare

/-- `RateLimitEntry` from the source: per-key counter record. -/
structure RateLimitEntry where
  count : Int
  firstAttempt : Int
  totalBytes : Int
deriving DecidableEq, Repr

/-- `RateLimitConfig` from the source. -/
structure RateLimitConfig where
  windowMs : Int
  maxRequests : Int
  maxBytes : Int
deriving DecidableEq, Repr

/-- The in-memory store `rateLimitStore : Map<string, RateLimitEntry>`,
modelled as an association list (keys unique by construction of the
operations, lookup returns the first match). -/
abbrev Store := List (String × RateLimitEntry)

/-- `Map.get`: first entry with the given key. -/
def storeGet (s : Store) (k : String) : Option RateLimitEntry :=
  match s with
  | [] => none
  | (k', v) :: rest => if k' = k then some v else storeGet rest k

/-- `Map.set`: replace the entry at the key, or append a fresh binding. -/
def storeSet (s : Store) (k : String) (v : RateLimitEntry) : Store :=
  match s with
  | [] => [(k, v)]
  | (k', v') :: rest =>
    if k' = k then (k, v) :: rest else (k', v') :: storeSet rest k v

/-- `Map.delete`: remove the binding at the key. -/
def storeDelete (s : Store) (k : String) : Store :=
  match s with
  | [] => []
  | (k', v') :: rest =>
    if k' = k then rest else (k', v') :: storeDelete rest k

/-- `GUEST_RATE_LIMIT` from the source. -/
def GUEST_RATE_LIMIT : RateLimitConfig :=
  ⟨24 * 60 * 60 * 1000, 10, 32 * 1024 * 1024⟩

/-- `AUTH_RATE_LIMIT` from the source. -/
def AUTH_RATE_LIMIT : RateLimitConfig :=
  ⟨24 * 60 * 60 * 1000, 100, 512 * 1024 * 1024⟩

/-- `STRICT_RATE_LIMIT` from the source (declared, used by no claim path). -/
def STRICT_RATE_LIMIT : RateLimitConfig :=
  ⟨60 * 1000, 5, 100 * 1024 * 1024⟩

/-- `getConfig` from the source. -/
def getConfig (isAuthenticated : Bool) : RateLimitConfig :=
  if isAuthenticated then AUTH_RATE_LIMIT else GUEST_RATE_LIMIT

/-- The longest configured window duration (cross-policy maximum), the
threshold the spec says the Sweeper must use. -/
def maxConfiguredWindowMs : Int :=
  max GUEST_RATE_LIMIT.windowMs (max AUTH_RATE_LIMIT.windowMs STRICT_RATE_LIMIT.windowMs)

/-- `cleanupExpiredEntries` from the source: delete every entry with
`now - entry.firstAttempt > GUEST_RATE_LIMIT.windowMs` while iterating the
map (`Date.now()` passed explicitly). -/
def cleanupExpiredEntries (store : Store) (now : Int) : Store :=
  match store with
  | [] => []
  | (k, e) :: rest =>
    if now - e.firstAttempt > GUEST_RATE_LIMIT.windowMs then
      cleanupExpiredEntries rest now
    else
      (k, e) :: cleanupExpiredEntries rest now

/-- `getRateLimitKey` from the source: `userId ? `user:${userId}` :
`ip:${ip}``.  JS string truthiness: `null` and `""` are both falsy, so an
empty user id falls through to the ip-based key. -/
def getRateLimitKey (userId : Option String) (ip : String) : String :=
  match userId with
  | some u => if u = "" then "ip:" ++ ip else "user:" ++ u
  | none => "ip:" ++ ip

/-- Result record of `checkRateLimit`; the two optional fields model the
optional properties `retryAfter?`/`reason?`. -/
structure CheckResult where
  success : Bool
  remaining : Int
  resetAt : Int
  limit : Int
  remainingBytes : Int
  totalBytes : Int
  retryAfter : Option Int
  reason : Option String
deriving DecidableEq, Repr

/-- `Math.ceil(x / 1000)` on integer milliseconds. -/
def ceilDivThousand (x : Int) : Int := (x + 999).fdiv 1000

/-- Lines 90-99 of the source: the entry `checkRateLimit` evaluates
against — the stored entry if present and not expired, otherwise a fresh
`{count: 0, firstAttempt: now, totalBytes: 0}`. -/
def effectiveEntry (store : Store) (now : Int) (config : RateLimitConfig)
    (key : String) : RateLimitEntry :=
  match storeGet store key with
  | none => ⟨0, now, 0⟩
  | some e => if now - e.firstAttempt > config.windowMs then ⟨0, now, 0⟩ else e

/-- `checkRateLimit` from the source, with `Date.now()` passed as `now`;
returns the result record together with the store after the call. -/
def checkRateLimit (store : Store) (now : Int) (key : String) (fileSize : Int)
    (isAuthenticated : Bool) : CheckResult × Store :=
  let config := getConfig isAuthenticated
  let entry := effectiveEntry store now config key
  let windowEnd := entry.firstAttempt + config.windowMs
  let remaining := max 0 (config.maxRequests - entry.count)
  let remainingBytes := max 0 (config.maxBytes - entry.totalBytes)
  if entry.count ≥ config.maxRequests then
    (⟨false, 0, windowEnd, config.maxRequests, 0, entry.totalBytes,
      some (ceilDivThousand (windowEnd - now)), some "rate_limit_requests"⟩, store)
  else if entry.totalBytes + fileSize > config.maxBytes then
    (⟨false, remaining, windowEnd, config.maxRequests, remainingBytes, entry.totalBytes,
      some (ceilDivThousand (windowEnd - now)), some "rate_limit_bytes"⟩, store)
  else
    let newEntry : RateLimitEntry :=
      ⟨entry.count + 1, entry.firstAttempt, entry.totalBytes + fileSize⟩
    (⟨true, remaining - 1, windowEnd, config.maxRequests,
      remainingBytes - fileSize, newEntry.totalBytes, none, none⟩,
     storeSet store key newEntry)

/-- Result record of `getRateLimitStatus`. -/
structure StatusResult where
  remaining : Int
  resetAt : Int
  limit : Int
  remainingBytes : Int
  totalBytes : Int
  percentageUsed : Rat
deriving DecidableEq, Repr

/-- `getRateLimitStatus` from the source; the source body performs no
store mutation, so the store is returned unchanged alongside the snapshot. -/
def getRateLimitStatus (store : Store) (now : Int) (key : String)
    (isAuthenticated : Bool) : StatusResult × Store :=
  let config := getConfig isAuthenticated
  match storeGet store key with
  | none =>
    (⟨config.maxRequests, now + config.windowMs, config.maxRequests,
      config.maxBytes, 0, 0⟩, store)
  | some entry =>
    if now - entry.firstAttempt > config.windowMs then
      (⟨config.maxRequests, now + config.windowMs, config.maxRequests,
        config.maxBytes, 0, 0⟩, store)
    else
      let windowEnd := entry.firstAttempt + config.windowMs
      (⟨max 0 (config.maxRequests - entry.count), windowEnd, config.maxRequests,
        max 0 (config.maxBytes - entry.totalBytes), entry.totalBytes,
        (entry.totalBytes : Rat) / (config.maxBytes : Rat) * 100⟩, store)

/-- `resetRateLimit` from the source. -/
def resetRateLimit (store : Store) (key : String) : Store :=
  storeDelete store key

/-- `releaseRateLimit` from the source. -/
def releaseRateLimit (store : Store) (key : String) (fileSize : Int) : Store :=
  match storeGet store key with
  | some entry =>
    storeSet store key
      ⟨max 0 (entry.count - 1), entry.firstAttempt, max 0 (entry.totalBytes - fileSize)⟩
  | none => store

/-- `n` sequential `checkRateLimit` calls at the same instant for the same
key, one per element of `sizes`; returns the number of admitted calls and
the final store. -/
def runCalls (now : Int) (key : String) (isAuthenticated : Bool) :
    Store → List Int → Nat × Store
  | store, [] => (0, store)
  | store, fs :: rest =>
    let step := checkRateLimit store now key fs isAuthenticated
    let tail := runCalls now key isAuthenticated step.2 rest
    ((if step.1.success then 1 else 0) + tail.1, tail.2)

example :
    (checkRateLimit [] 0 "k" 400 false).1.success = true := by decide

example :
    (runCalls 0 "k" false [] (List.replicate 12 0)).1 = 10 := by decide

/-! ## Store lemmas -/

theorem storeGet_storeSet_self (s : Store) (k : String) (v : RateLimitEntry) :
    storeGet (storeSet s k v) k = some v := by
  induction s with
  | nil => simp [storeSet, storeGet]
  | cons p rest ih =>
    obtain ⟨k', v'⟩ := p
    by_cases h : k' = k
    · simp [storeSet, storeGet, h]
    · simp [storeSet, storeGet, h, ih]

/-! ## Configuration facts -/

theorem getConfig_windowMs_pos (auth : Bool) : 0 < (getConfig auth).windowMs := by
  cases auth <;> decide

theorem getConfig_maxRequests_pos (auth : Bool) : 0 < (getConfig auth).maxRequests := by
  cases auth <;> decide

theorem getConfig_maxBytes_pos (auth : Bool) : 0 < (getConfig auth).maxBytes := by
  cases auth <;> decide

theorem guest_windowMs_eq_maxConfigured :
    GUEST_RATE_LIMIT.windowMs = maxConfiguredWindowMs := by decide

/-! ## `effectiveEntry` lemmas -/

theorem effectiveEntry_of_none (store : Store) (now : Int) (config : RateLimitConfig)
    (key : String) (h : storeGet store key = none) :
    effectiveEntry store now config key = ⟨0, now, 0⟩ := by
  simp [effectiveEntry, h]

theorem effectiveEntry_of_expired (store : Store) (now : Int) (config : RateLimitConfig)
    (key : String) (e : RateLimitEntry) (h : storeGet store key = some e)
    (hexp : now - e.firstAttempt > config.windowMs) :
    effectiveEntry store now config key = ⟨0, now, 0⟩ := by
  simp [effectiveEntry, h, hexp]

theorem effectiveEntry_of_fresh (store : Store) (now : Int) (config : RateLimitConfig)
    (key : String) (e : RateLimitEntry) (h : storeGet store key = some e)
    (hfr : now - e.firstAttempt ≤ config.windowMs) :
    effectiveEntry store now config key = e := by
  simp [effectiveEntry, h]
  omega

/-! ## `checkRateLimit` step lemmas -/

theorem checkRateLimit_reject_count (store : Store) (now : Int) (key : String)
    (fs : Int) (auth : Bool)
    (h : (getConfig auth).maxRequests ≤ (effectiveEntry store now (getConfig auth) key).count) :
    checkRateLimit store now key fs auth =
      (⟨false, 0,
        (effectiveEntry store now (getConfig auth) key).firstAttempt + (getConfig auth).windowMs,
        (getConfig auth).maxRequests, 0,
        (effectiveEntry store now (getConfig auth) key).totalBytes,
        some (ceilDivThousand
          ((effectiveEntry store now (getConfig auth) key).firstAttempt
            + (getConfig auth).windowMs - now)),
        some "rate_limit_requests"⟩, store) := by
  simp only [checkRateLimit]
  rw [if_pos h]

theorem checkRateLimit_reject_bytes (store : Store) (now : Int) (key : String)
    (fs : Int) (auth : Bool)
    (h1 : (effectiveEntry store now (getConfig auth) key).count < (getConfig auth).maxRequests)
    (h2 : (getConfig auth).maxBytes <
      (effectiveEntry store now (getConfig auth) key).totalBytes + fs) :
    checkRateLimit store now key fs auth =
      (⟨false,
        max 0 ((getConfig auth).maxRequests - (effectiveEntry store now (getConfig auth) key).count),
        (effectiveEntry store now (getConfig auth) key).firstAttempt + (getConfig auth).windowMs,
        (getConfig auth).maxRequests,
        max 0 ((getConfig auth).maxBytes - (effectiveEntry store now (getConfig auth) key).totalBytes),
        (effectiveEntry store now (getConfig auth) key).totalBytes,
        some (ceilDivThousand
          ((effectiveEntry store now (getConfig auth) key).firstAttempt
            + (getConfig auth).windowMs - now)),
        some "rate_limit_bytes"⟩, store) := by
  simp only [checkRateLimit]
  rw [if_neg (by omega), if_pos (by omega)]

theorem checkRateLimit_accepted (store : Store) (now : Int) (key : String)
    (fs : Int) (auth : Bool)
    (h1 : (effectiveEntry store now (getConfig auth) key).count < (getConfig auth).maxRequests)
    (h2 : (effectiveEntry store now (getConfig auth) key).totalBytes + fs ≤
      (getConfig auth).maxBytes) :
    checkRateLimit store now key fs auth =
      (⟨true,
        max 0 ((getConfig auth).maxRequests
          - (effectiveEntry store now (getConfig auth) key).count) - 1,
        (effectiveEntry store now (getConfig auth) key).firstAttempt + (getConfig auth).windowMs,
        (getConfig auth).maxRequests,
        max 0 ((getConfig auth).maxBytes
          - (effectiveEntry store now (getConfig auth) key).totalBytes) - fs,
        (effectiveEntry store now (getConfig auth) key).totalBytes + fs,
        none, none⟩,
       storeSet store key
         ⟨(effectiveEntry store now (getConfig auth) key).count + 1,
          (effectiveEntry store now (getConfig auth) key).firstAttempt,
          (effectiveEntry store now (getConfig auth) key).totalBytes + fs⟩) := by
  simp only [checkRateLimit]
  rw [if_neg (by omega), if_neg (by omega)]

/-! ## Admission-count lemmas for repeated calls within one window -/

theorem runCalls_replicate_zero_of_entry (now : Int) (key : String) (auth : Bool) :
    ∀ (n : Nat) (store : Store) (c : Int), 0 ≤ c →
      storeGet store key = some ⟨c, now, 0⟩ →
      (runCalls now key auth store (List.replicate n 0)).1 =
        min n ((getConfig auth).maxRequests - c).toNat := by
  intro n
  induction n with
  | zero => intro store c _ _; simp [runCalls]
  | succ n ih =>
    intro store c hc hget
    have hw := getConfig_windowMs_pos auth
    have hB := getConfig_maxBytes_pos auth
    have heff : effectiveEntry store now (getConfig auth) key = ⟨c, now, 0⟩ :=
      effectiveEntry_of_fresh store now (getConfig auth) key ⟨c, now, 0⟩ hget
        (by show now - now ≤ _; omega)
    by_cases hcnt : (getConfig auth).maxRequests ≤ c
    · have hstep := checkRateLimit_reject_count store now key 0 auth
        (by rw [heff]; exact hcnt)
      rw [List.replicate_succ]
      simp only [runCalls, hstep]
      norm_num
      rw [ih store c hc hget]
      omega
    · push_neg at hcnt
      have hstep := checkRateLimit_accepted store now key 0 auth
        (by rw [heff]; exact hcnt)
        (by rw [heff]; show (0 : Int) + 0 ≤ _; omega)
      rw [heff] at hstep
      rw [List.replicate_succ]
      simp only [runCalls, hstep]
      norm_num
      have hget' : storeGet (storeSet store key ⟨c + 1, now, 0⟩) key =
          some ⟨c + 1, now, 0⟩ := storeGet_storeSet_self store key ⟨c + 1, now, 0⟩
      rw [ih (storeSet store key ⟨c + 1, now, 0⟩) (c + 1) (by omega) hget']
      omega

theorem runCalls_replicate_zero_of_none (now : Int) (key : String) (auth : Bool)
    (n : Nat) (store : Store) (h : storeGet store key = none) :
    (runCalls now key auth store (List.replicate n 0)).1 =
      min n (getConfig auth).maxRequests.toNat := by
  cases n with
  | zero => simp [runCalls]
  | succ n =>
    have hR := getConfig_maxRequests_pos auth
    have hB := getConfig_maxBytes_pos auth
    have heff := effectiveEntry_of_none store now (getConfig auth) key h
    have hstep := checkRateLimit_accepted store now key 0 auth
      (by rw [heff]; exact hR)
      (by rw [heff]; show (0 : Int) + 0 ≤ _; omega)
    rw [heff] at hstep
    rw [List.replicate_succ]
    simp only [runCalls, hstep]
    norm_num
    have hget' : storeGet (storeSet store key ⟨1, now, 0⟩) key =
        some ⟨1, now, 0⟩ := storeGet_storeSet_self store key ⟨1, now, 0⟩
    rw [runCalls_replicate_zero_of_entry now key auth n
      (storeSet store key ⟨1, now, 0⟩) 1 (by omega) hget']
    omega

/-! ## Claim theorems -/

/-- C1: within one window exactly `maxRequests` calls to `checkRateLimit` are
admitted: once the effective entry's count has reached the policy's
`maxRequests`, every further call in the same window is rejected with reason
`rate_limit_requests` regardless of the candidate byte size (the count check
runs strictly before the byte check, so a request violating both ceilings
reports the count violation); and `n` calls against a fresh key within one
window admit exactly `min n maxRequests` of them. -/
theorem claim_C1_request_count_ceiling (store : Store) (now : Int) (key : String)
    (fs : Int) (auth : Bool) (n : Nat) :
    ((getConfig auth).maxRequests ≤ (effectiveEntry store now (getConfig auth) key).count →
      (checkRateLimit store now key fs auth).1.success = false ∧
      (checkRateLimit store now key fs auth).1.reason = some "rate_limit_requests") ∧
    (runCalls now key auth [] (List.replicate n 0)).1 =
      min n (getConfig auth).maxRequests.toNat := by
  constructor
  · intro h
    rw [checkRateLimit_reject_count store now key fs auth h]
    exact ⟨rfl, rfl⟩
  · exact runCalls_replicate_zero_of_none now key auth n [] rfl

/-- Witness for C1: a guest entry that already holds 10 admissions rejects a
call whose byte size would also violate the byte ceiling with reason
`rate_limit_requests`, and 12 zero-byte calls on a fresh key admit
exactly `min 12 10 = 10`. -/
theorem claim_C1_witness :
    ((checkRateLimit [("k", ⟨10, 0, 0⟩)] 0 "k" 999999999 false).1.success = false ∧
     (checkRateLimit [("k", ⟨10, 0, 0⟩)] 0 "k" 999999999 false).1.reason =
       some "rate_limit_requests") ∧
    (runCalls 0 "k" false [] (List.replicate 12 0)).1 =
      min 12 (getConfig false).maxRequests.toNat :=
  ⟨(claim_C1_request_count_ceiling [("k", ⟨10, 0, 0⟩)] 0 "k" 999999999 false 12).1
    (by decide),
   (claim_C1_request_count_ceiling [("k", ⟨10, 0, 0⟩)] 0 "k" 999999999 false 12).2⟩

/-- C2: an admitted call increments the effective entry's count by exactly 1,
adds exactly `fileSize` to its byte total, persists the updated entry in the
store, and returns the post-increment remaining count, the post-increment
remaining bytes, the post-increment byte total, and the absolute window-end
timestamp `entry.firstAttempt + config.windowMs`. -/
theorem claim_C2_admission_effects (store : Store) (now : Int) (key : String)
    (fs : Int) (auth : Bool)
    (h1 : (effectiveEntry store now (getConfig auth) key).count <
      (getConfig auth).maxRequests)
    (h2 : (effectiveEntry store now (getConfig auth) key).totalBytes + fs ≤
      (getConfig auth).maxBytes)
    (h3 : 0 ≤ fs) :
    (checkRateLimit store now key fs auth).1.success = true ∧
    (checkRateLimit store now key fs auth).2 =
      storeSet store key
        ⟨(effectiveEntry store now (getConfig auth) key).count + 1,
         (effectiveEntry store now (getConfig auth) key).firstAttempt,
         (effectiveEntry store now (getConfig auth) key).totalBytes + fs⟩ ∧
    storeGet (checkRateLimit store now key fs auth).2 key =
      some ⟨(effectiveEntry store now (getConfig auth) key).count + 1,
            (effectiveEntry store now (getConfig auth) key).firstAttempt,
            (effectiveEntry store now (getConfig auth) key).totalBytes + fs⟩ ∧
    (checkRateLimit store now key fs auth).1.remaining =
      (getConfig auth).maxRequests -
        ((effectiveEntry store now (getConfig auth) key).count + 1) ∧
    (checkRateLimit store now key fs auth).1.remainingBytes =
      (getConfig auth).maxBytes -
        ((effectiveEntry store now (getConfig auth) key).totalBytes + fs) ∧
    (checkRateLimit store now key fs auth).1.totalBytes =
      (effectiveEntry store now (getConfig auth) key).totalBytes + fs ∧
    (checkRateLimit store now key fs auth).1.resetAt =
      (effectiveEntry store now (getConfig auth) key).firstAttempt +
        (getConfig auth).windowMs := by
  rw [checkRateLimit_accepted store now key fs auth h1 h2]
  refine ⟨rfl, rfl, storeGet_storeSet_self _ _ _, ?_, ?_, rfl, rfl⟩
  · show max 0 ((getConfig auth).maxRequests -
      (effectiveEntry store now (getConfig auth) key).count) - 1 = _
    omega
  · show max 0 ((getConfig auth).maxBytes -
      (effectiveEntry store now (getConfig auth) key).totalBytes) - fs = _
    omega

/-- Witness for C2: the first 5-byte guest call on an empty store. -/
theorem claim_C2_witness :
    (checkRateLimit [] 0 "k" 5 false).1.success = true ∧
    (checkRateLimit [] 0 "k" 5 false).2 =
      storeSet [] "k"
        ⟨(effectiveEntry [] 0 (getConfig false) "k").count + 1,
         (effectiveEntry [] 0 (getConfig false) "k").firstAttempt,
         (effectiveEntry [] 0 (getConfig false) "k").totalBytes + 5⟩ ∧
    storeGet (checkRateLimit [] 0 "k" 5 false).2 "k" =
      some ⟨(effectiveEntry [] 0 (getConfig false) "k").count + 1,
            (effectiveEntry [] 0 (getConfig false) "k").firstAttempt,
            (effectiveEntry [] 0 (getConfig false) "k").totalBytes + 5⟩ ∧
    (checkRateLimit [] 0 "k" 5 false).1.remaining =
      (getConfig false).maxRequests -
        ((effectiveEntry [] 0 (getConfig false) "k").count + 1) ∧
    (checkRateLimit [] 0 "k" 5 false).1.remainingBytes =
      (getConfig false).maxBytes -
        ((effectiveEntry [] 0 (getConfig false) "k").totalBytes + 5) ∧
    (checkRateLimit [] 0 "k" 5 false).1.totalBytes =
      (effectiveEntry [] 0 (getConfig false) "k").totalBytes + 5 ∧
    (checkRateLimit [] 0 "k" 5 false).1.resetAt =
      (effectiveEntry [] 0 (getConfig false) "k").firstAttempt +
        (getConfig false).windowMs :=
  claim_C2_admission_effects [] 0 "k" 5 false (by decide) (by decide) (by decide)

/-- C3: every rejected call (count ceiling or byte ceiling) leaves the store
entirely unchanged, so a subsequent status read for the key reports the same
usage as before the rejected call. -/
theorem claim_C3_rejection_no_charge (store : Store) (now : Int) (key : String)
    (fs : Int) (auth : Bool)
    (h : (checkRateLimit store now key fs auth).1.success = false) :
    (checkRateLimit store now key fs auth).2 = store ∧
    ∀ (now2 : Int) (auth2 : Bool),
      getRateLimitStatus (checkRateLimit store now key fs auth).2 now2 key auth2 =
        getRateLimitStatus store now2 key auth2 := by
  have hstore : (checkRateLimit store now key fs auth).2 = store := by
    by_cases h1 : (getConfig auth).maxRequests ≤
        (effectiveEntry store now (getConfig auth) key).count
    · rw [checkRateLimit_reject_count store now key fs auth h1]
    · push_neg at h1
      by_cases h2 : (getConfig auth).maxBytes <
          (effectiveEntry store now (getConfig auth) key).totalBytes + fs
      · rw [checkRateLimit_reject_bytes store now key fs auth h1 h2]
      · push_neg at h2
        rw [checkRateLimit_accepted store now key fs auth h1 h2] at h
        simp at h
  exact ⟨hstore, fun now2 auth2 => by rw [hstore]⟩

/-- Witness for C3: a byte-ceiling rejection (guest entry at 33554430 of
33554432 bytes, candidate 100 bytes) changes nothing in the store. -/
theorem claim_C3_witness :
    (checkRateLimit [("k", ⟨2, 0, 33554430⟩)] 50 "k" 100 false).1.success = false ∧
    (checkRateLimit [("k", ⟨2, 0, 33554430⟩)] 50 "k" 100 false).2 =
      [("k", ⟨2, 0, 33554430⟩)] ∧
    getRateLimitStatus (checkRateLimit [("k", ⟨2, 0, 33554430⟩)] 50 "k" 100 false).2
        60 "k" false =
      getRateLimitStatus [("k", ⟨2, 0, 33554430⟩)] 60 "k" false :=
  ⟨by decide,
   (claim_C3_rejection_no_charge [("k", ⟨2, 0, 33554430⟩)] 50 "k" 100 false (by decide)).1,
   (claim_C3_rejection_no_charge [("k", ⟨2, 0, 33554430⟩)] 50 "k" 100 false (by decide)).2
     60 false⟩

/-- C4: when no entry exists for the key, or the stored entry's window has
elapsed (`now - firstAttempt > windowMs`), the call evaluates against a
completely fresh entry `⟨0, now, 0⟩`; in particular the next in-budget call
after such a gap stores `⟨1, now, fileSize⟩` — count 0 and bytes 0 observed
before its own increment. -/
theorem claim_C4_window_reset (store : Store) (now : Int) (key : String)
    (fs : Int) (auth : Bool)
    (h : storeGet store key = none ∨
      ∃ e, storeGet store key = some e ∧
        now - e.firstAttempt > (getConfig auth).windowMs) :
    effectiveEntry store now (getConfig auth) key = ⟨0, now, 0⟩ ∧
    (0 ≤ fs → fs ≤ (getConfig auth).maxBytes →
      (checkRateLimit store now key fs auth).1.success = true ∧
      storeGet (checkRateLimit store now key fs auth).2 key = some ⟨1, now, fs⟩) := by
  have heff : effectiveEntry store now (getConfig auth) key = ⟨0, now, 0⟩ := by
    rcases h with h | ⟨e, hget, hexp⟩
    · exact effectiveEntry_of_none store now (getConfig auth) key h
    · exact effectiveEntry_of_expired store now (getConfig auth) key e hget hexp
  refine ⟨heff, fun h1 h2 => ?_⟩
  have hstep := checkRateLimit_accepted store now key fs auth
    (by rw [heff]; exact getConfig_maxRequests_pos auth)
    (by rw [heff]; show (0 : Int) + fs ≤ _; omega)
  rw [heff] at hstep
  rw [hstep]
  refine ⟨rfl, ?_⟩
  simpa using storeGet_storeSet_self store key ⟨0 + 1, now, 0 + fs⟩

/-- Witness for C4: a guest entry whose window started at 0, queried at
86400001 ms (one past the 24-hour window), resets fully before charging. -/
theorem claim_C4_witness :
    effectiveEntry [("k", ⟨5, 0, 100⟩)] 86400001 (getConfig false) "k" =
      ⟨0, 86400001, 0⟩ ∧
    (checkRateLimit [("k", ⟨5, 0, 100⟩)] 86400001 "k" 7 false).1.success = true ∧
    storeGet (checkRateLimit [("k", ⟨5, 0, 100⟩)] 86400001 "k" 7 false).2 "k" =
      some ⟨1, 86400001, 7⟩ :=
  have h := claim_C4_window_reset [("k", ⟨5, 0, 100⟩)] 86400001 "k" 7 false
    (Or.inr ⟨⟨5, 0, 100⟩, by decide, by decide⟩)
  ⟨h.1, (h.2 (by decide) (by decide)).1, (h.2 (by decide) (by decide)).2⟩

/-- C5: `releaseRateLimit` on an existing entry floors count at
`max 0 (count - 1)` and bytes at `max 0 (totalBytes - fileSize)` and persists
the entry without re-checking window freshness; on an absent key it is a
no-op; and no release can leave a negative count or byte total at the key. -/
theorem claim_C5_release_floor (store : Store) (key : String) (fs : Int) :
    (storeGet store key = none → releaseRateLimit store key fs = store) ∧
    (∀ e, storeGet store key = some e →
      releaseRateLimit store key fs =
        storeSet store key
          ⟨max 0 (e.count - 1), e.firstAttempt, max 0 (e.totalBytes - fs)⟩) ∧
    (∀ e', storeGet (releaseRateLimit store key fs) key = some e' →
      0 ≤ e'.count ∧ 0 ≤ e'.totalBytes) := by
  refine ⟨fun h => by simp [releaseRateLimit, h],
    fun e h => by simp [releaseRateLimit, h], ?_⟩
  intro e' h
  cases hget : storeGet store key with
  | none =>
    rw [show releaseRateLimit store key fs = store from by
      simp [releaseRateLimit, hget]] at h
    rw [hget] at h
    exact absurd h (by simp)
  | some e =>
    rw [show releaseRateLimit store key fs =
        storeSet store key
          ⟨max 0 (e.count - 1), e.firstAttempt, max 0 (e.totalBytes - fs)⟩ from by
      simp [releaseRateLimit, hget]] at h
    obtain rfl : e' = ⟨max 0 (e.count - 1), e.firstAttempt, max 0 (e.totalBytes - fs)⟩ := by
      have h2 := storeGet_storeSet_self store key
        ⟨max 0 (e.count - 1), e.firstAttempt, max 0 (e.totalBytes - fs)⟩
      rw [h] at h2
      exact Option.some.inj h2
    exact ⟨le_max_left 0 _, le_max_left 0 _⟩

/-- Witness for C5: releasing 10 bytes against an entry holding count 0 and
3 bytes floors both fields at 0 instead of going negative, and releasing
against an empty store is a no-op. -/
theorem claim_C5_witness :
    releaseRateLimit [] "k" 10 = [] ∧
    releaseRateLimit [("k", ⟨0, 5, 3⟩)] "k" 10 =
      storeSet [("k", ⟨0, 5, 3⟩)] "k"
        ⟨max 0 ((⟨0, 5, 3⟩ : RateLimitEntry).count - 1),
         (⟨0, 5, 3⟩ : RateLimitEntry).firstAttempt,
         max 0 ((⟨0, 5, 3⟩ : RateLimitEntry).totalBytes - 10)⟩ ∧
    0 ≤ (⟨0, 5, 0⟩ : RateLimitEntry).count ∧
    0 ≤ (⟨0, 5, 0⟩ : RateLimitEntry).totalBytes :=
  ⟨(claim_C5_release_floor [] "k" 10).1 rfl,
   (claim_C5_release_floor [("k", ⟨0, 5, 3⟩)] "k" 10).2.1 ⟨0, 5, 3⟩ (by decide),
   (claim_C5_release_floor [("k", ⟨0, 5, 3⟩)] "k" 10).2.2 ⟨0, 5, 0⟩ (by decide)⟩

/-- C7: `getRateLimitStatus` never mutates the store; on an absent or
expired entry it reports full remaining capacity (remaining = maxRequests,
remainingBytes = maxBytes, totalBytes = 0, percentageUsed = 0) without
persisting anything; on a live entry it reports `max 0 (maxRequests - count)`,
`max 0 (maxBytes - totalBytes)`, the window-end timestamp
`firstAttempt + windowMs`, and `totalBytes / maxBytes * 100`. -/
theorem claim_C7_status_read_only (store : Store) (now : Int) (key : String)
    (auth : Bool) :
    (getRateLimitStatus store now key auth).2 = store ∧
    ((storeGet store key = none ∨
        ∃ e, storeGet store key = some e ∧
          now - e.firstAttempt > (getConfig auth).windowMs) →
      (getRateLimitStatus store now key auth).1 =
        ⟨(getConfig auth).maxRequests, now + (getConfig auth).windowMs,
         (getConfig auth).maxRequests, (getConfig auth).maxBytes, 0, 0⟩) ∧
    (∀ e, storeGet store key = some e →
      now - e.firstAttempt ≤ (getConfig auth).windowMs →
      (getRateLimitStatus store now key auth).1 =
        ⟨max 0 ((getConfig auth).maxRequests - e.count),
         e.firstAttempt + (getConfig auth).windowMs,
         (getConfig auth).maxRequests,
         max 0 ((getConfig auth).maxBytes - e.totalBytes),
         e.totalBytes,
         (e.totalBytes : Rat) / ((getConfig auth).maxBytes : Rat) * 100⟩) := by
  refine ⟨?_, ?_, ?_⟩
  · cases hget : storeGet store key with
    | none => simp [getRateLimitStatus, hget]
    | some e =>
      simp only [getRateLimitStatus, hget]
      split <;> rfl
  · rintro (h | ⟨e, hget, hexp⟩)
    · simp [getRateLimitStatus, h]
    · simp [getRateLimitStatus, hget, hexp]
  · intro e hget hfr
    have hcond : ¬ (now - e.firstAttempt > (getConfig auth).windowMs) := by omega
    simp [getRateLimitStatus, hget, hcond]

/-- Witness for C7: a live guest entry (3 requests, 100 bytes, window started
at 0) peeked at 50 ms: store untouched, snapshot as specified. -/
theorem claim_C7_witness :
    (getRateLimitStatus [("k", ⟨3, 0, 100⟩)] 50 "k" false).2 = [("k", ⟨3, 0, 100⟩)] ∧
    (getRateLimitStatus [("k", ⟨3, 0, 100⟩)] 50 "k" false).1 =
      ⟨max 0 ((getConfig false).maxRequests - (⟨3, 0, 100⟩ : RateLimitEntry).count),
       (⟨3, 0, 100⟩ : RateLimitEntry).firstAttempt + (getConfig false).windowMs,
       (getConfig false).maxRequests,
       max 0 ((getConfig false).maxBytes - (⟨3, 0, 100⟩ : RateLimitEntry).totalBytes),
       (⟨3, 0, 100⟩ : RateLimitEntry).totalBytes,
       ((⟨3, 0, 100⟩ : RateLimitEntry).totalBytes : Rat) /
         (((getConfig false).maxBytes : Int) : Rat) * 100⟩ :=
  ⟨(claim_C7_status_read_only [("k", ⟨3, 0, 100⟩)] 50 "k" false).1,
   (claim_C7_status_read_only [("k", ⟨3, 0, 100⟩)] 50 "k" false).2.2 ⟨3, 0, 100⟩
     (by decide) (by decide)⟩

/-- C8 counterexample: the claim says the key is a function of the user id
exclusively for EVERY present user id, but the present-but-empty user id
`some ""` is falsy in JS, so the key still depends on the origin address. -/
theorem claim_C8_counterexample :
    ¬ (getRateLimitKey (some "") "1.2.3.4" = getRateLimitKey (some "") "5.6.7.8") := by
  decide

/-- C8 (amended): `getRateLimitKey` is deterministic; for every present
NON-EMPTY user id the key is independent of the origin address; and with no
user id, distinct addresses `1.2.3.4` and `5.6.7.8` give distinct keys. -/
theorem claim_C8_key_derivation (u : String) (hu : u ≠ "") (ip ip1 ip2 : String) :
    getRateLimitKey (some u) ip = getRateLimitKey (some u) ip ∧
    getRateLimitKey (some u) ip1 = getRateLimitKey (some u) ip2 ∧
    getRateLimitKey none "1.2.3.4" ≠ getRateLimitKey none "5.6.7.8" := by
  refine ⟨rfl, ?_, by decide⟩
  simp [getRateLimitKey, hu]

/-- Witness for C8 (amended): user id `u1` with two different addresses. -/
theorem claim_C8_witness :
    getRateLimitKey (some "u1") "1.2.3.4" = getRateLimitKey (some "u1") "1.2.3.4" ∧
    getRateLimitKey (some "u1") "1.2.3.4" = getRateLimitKey (some "u1") "5.6.7.8" ∧
    getRateLimitKey none "1.2.3.4" ≠ getRateLimitKey none "5.6.7.8" :=
  claim_C8_key_derivation "u1" (by decide) "1.2.3.4" "1.2.3.4" "5.6.7.8"

/-- C9: one sweeper pass removes exactly the entries whose age
`now - firstAttempt` exceeds the longest configured window duration (the
maximum of the guest, authenticated and strict policies' windows — in this
configuration equal to `GUEST_RATE_LIMIT.windowMs`, the threshold the source
hard-codes), and leaves every other entry untouched and in order. -/
theorem claim_C9_sweeper_exact (store : Store) (now : Int) :
    cleanupExpiredEntries store now =
      store.filter (fun p => decide (now - p.2.firstAttempt ≤ maxConfiguredWindowMs)) ∧
    ∀ (k : String) (e : RateLimitEntry),
      ((k, e) ∈ cleanupExpiredEntries store now ↔
        ((k, e) ∈ store ∧ now - e.firstAttempt ≤ maxConfiguredWindowMs)) := by
  have hmax : GUEST_RATE_LIMIT.windowMs = maxConfiguredWindowMs :=
    guest_windowMs_eq_maxConfigured
  have hfilter : cleanupExpiredEntries store now =
      store.filter (fun p => decide (now - p.2.firstAttempt ≤ maxConfiguredWindowMs)) := by
    induction store with
    | nil => rfl
    | cons p rest ih =>
      obtain ⟨k, e⟩ := p
      simp only [cleanupExpiredEntries, List.filter_cons, decide_eq_true_eq]
      by_cases h : now - e.firstAttempt > GUEST_RATE_LIMIT.windowMs
      · rw [if_pos h, if_neg (by omega), ih]
      · rw [if_neg h, if_pos (by omega), ih]
  refine ⟨hfilter, fun k e => ?_⟩
  rw [hfilter]
  simp [List.mem_filter]

/-- Witness for C9: an entry aged 100000000 ms is swept, an entry aged
1000 ms survives. -/
theorem claim_C9_witness :
    cleanupExpiredEntries [("old", ⟨1, 0, 0⟩), ("new", ⟨2, 99999000, 5⟩)] 100000000 =
      [("old", ⟨1, 0, 0⟩), ("new", ⟨2, 99999000, 5⟩)].filter
        (fun p => decide (100000000 - p.2.firstAttempt ≤ maxConfiguredWindowMs)) ∧
    (("new", (⟨2, 99999000, 5⟩ : RateLimitEntry)) ∈
        cleanupExpiredEntries [("old", ⟨1, 0, 0⟩), ("new", ⟨2, 99999000, 5⟩)] 100000000 ↔
      (("new", (⟨2, 99999000, 5⟩ : RateLimitEntry)) ∈
          [("old", (⟨1, 0, 0⟩ : RateLimitEntry)), ("new", ⟨2, 99999000, 5⟩)] ∧
        100000000 - (⟨2, 99999000, 5⟩ : RateLimitEntry).firstAttempt ≤
          maxConfiguredWindowMs)) :=
  ⟨(claim_C9_sweeper_exact [("old", ⟨1, 0, 0⟩), ("new", ⟨2, 99999000, 5⟩)] 100000000).1,
   (claim_C9_sweeper_exact [("old", ⟨1, 0, 0⟩), ("new", ⟨2, 99999000, 5⟩)] 100000000).2
     "new" ⟨2, 99999000, 5⟩⟩

/-- C10: an empty-string (present but empty) user id is treated as anonymous:
the key equals the address-based key `getRateLimitKey none ip`, and two calls
with empty user id and different origin addresses yield different keys. -/
theorem claim_C10_empty_userid_anonymous (ip ip1 ip2 : String) (h : ip1 ≠ ip2) :
    getRateLimitKey (some "") ip = getRateLimitKey none ip ∧
    getRateLimitKey (some "") ip1 ≠ getRateLimitKey (some "") ip2 := by
  constructor
  · rfl
  · intro heq
    have heq2 : "ip:" ++ ip1 = "ip:" ++ ip2 := by
      simpa [getRateLimitKey] using heq
    have hd := congrArg String.data heq2
    simp only [String.data_append] at hd
    exact h (String.ext (List.append_cancel_left hd))

/-- Witness for C10: empty user id with addresses `9.9.9.9` and `8.8.8.8`. -/
theorem claim_C10_witness :
    getRateLimitKey (some "") "9.9.9.9" = getRateLimitKey none "9.9.9.9" ∧
    getRateLimitKey (some "") "9.9.9.9" ≠ getRateLimitKey (some "") "8.8.8.8" :=
  claim_C10_empty_userid_anonymous "9.9.9.9" "9.9.9.9" "8.8.8.8" (by decide)

end LiteShare
